import Mathlib

/-!
Shallow embedding of the root-module compiler of consul-terraform-sync
(templates/tftmpl/root.go and its collaborators), together with theorems
settling the specification claims about it.

Go maps are modelled as association lists; `cty.Value` is modelled by
`HclValue` (with object fields cons-encoded inside the type so that all
recursions are structural); an hclwrite body is modelled by the
cons-encoded sequence `Body`, with a deterministic rendering function
standing for hclwrite token serialization plus `hclwrite.Format`.
-/

namespace Tftmpl

/-- Model of a `cty.Value` as used by the generator. An object value is the
cons-encoded sequence of its fields: `objNil` is the empty object and
`objCons k v rest` the object with first field `k ↦ v`. -/
inductive HclValue where
  | str (s : String)
  | bool (b : Bool)
  | int (n : Int)
  | objNil
  | objCons (k : String) (v : HclValue) (rest : HclValue)
deriving Repr, DecidableEq

/-- `val.Type().IsObjectType()` from go-cty. -/
def HclValue.IsObjectType : HclValue → Bool
  | .objNil => true
  | .objCons _ _ _ => true
  | _ => false

/-- The keys of an object value (`val.AsValueMap()` key set). -/
def HclValue.objKeys : HclValue → List String
  | .objCons k _ rest => k :: rest.objKeys
  | _ => []

/-- The fields of an object value as an association list. -/
def HclValue.objFields : HclValue → List (String × HclValue)
  | .objCons k v rest => (k, v) :: rest.objFields
  | _ => []

/-- Modelled from the spec: `hcltmpl.NamedBlock` (templates/hcltmpl is not
under src/): a named configuration fragment with an attribute map. -/
structure NamedBlock where
  Name : String
  Variables : List (String × HclValue)
deriving Repr, DecidableEq

/-- Lexicographic comparison of character sequences; models Go's
byte-wise string comparison (on UTF-8, byte order and code-point order
agree). -/
def charListLe : List Char → List Char → Bool
  | [], _ => true
  | _ :: _, [] => false
  | a :: as, b :: bs =>
    if a < b then true
    else if b < a then false
    else charListLe as bs

/-- Go's `a <= b` on strings. -/
def strLe (a b : String) : Bool :=
  charListLe a.data b.data

/-- Sort by a string key, ascending; models Go sorting (`sort.Strings`,
and `sort.Slice` comparing names). Insertion sort is used because it is
stable and agrees with Go's `sort.Slice` on the small inputs exercised
here. -/
def sortByKey {α : Type} (f : α → String) (l : List α) : List α :=
  have : DecidableRel (fun a b : α => strLe (f a) (f b) = true) :=
    fun a b => inferInstanceAs (Decidable (strLe (f a) (f b) = true))
  List.insertionSort (fun a b => strLe (f a) (f b) = true) l

/-- Ascending sort of strings. -/
def sortStrings (l : List String) : List String :=
  sortByKey id l

/-- `sortedKeys` from root.go: the keys of a map, ascending. -/
def sortedKeys (m : List (String × HclValue)) : List String :=
  sortStrings (m.map Prod.fst)

/-- Modelled from the spec: `NamedBlock.SortedAttributes` (templates/hcltmpl
is not under src/): attribute names in ascending order. -/
def NamedBlock.SortedAttributes (b : NamedBlock) : List String :=
  sortedKeys b.Variables

/-- Map lookup `m[k]`; the generator only looks up keys obtained from the
same map, so the default is never observed. -/
def assocGet (m : List (String × HclValue)) (k : String) : HclValue :=
  match m.find? (fun p => p.1 = k) with
  | some p => p.2
  | none => .bool true

/-- Modelled from the spec: `hcltmpl.NewNamedBlock` (templates/hcltmpl is
not under src/) wraps a backend configuration object — a single-entry
mapping from block name to its attribute object — into a NamedBlock. An
empty mapping yields a NamedBlock with an empty name. -/
def NewNamedBlock (m : List (String × HclValue)) : NamedBlock :=
  match m with
  | [] => { Name := "", Variables := [] }
  | (k, v) :: _ => { Name := k, Variables := v.objFields }

/-- `Task` from root.go. -/
structure Task where
  Description : String
  Name : String
  Source : String
  Version : String
deriving Repr, DecidableEq

/-- `Service` from root.go. -/
structure Service where
  Datacenter : String
  Description : String
  Name : String
  Namespace : String
  Tag : String
  Filter : String
  CTSUserDefinedMeta : List (String × String)
deriving Repr, DecidableEq

/-- An hclwrite body, cons-encoded: each constructor carries the rest of
the sequence. Nodes are attributes (literal-valued or traversal-valued),
nested blocks, blank lines and comment tokens. -/
inductive Body where
  | nil
  | attrLit (name : String) (v : HclValue) (rest : Body)
  | attrTrav (name : String) (path : List String) (rest : Body)
  | block (btype : String) (labels : List String) (child : Body) (rest : Body)
  | newline (rest : Body)
  | comment (text : String) (rest : Body)
deriving Repr, DecidableEq

/-- Sequence concatenation of two bodies. -/
def Body.append : Body → Body → Body
  | .nil, b => b
  | .attrLit n v r, b => .attrLit n v (r.append b)
  | .attrTrav n p r, b => .attrTrav n p (r.append b)
  | .block t ls c r, b => .block t ls c (r.append b)
  | .newline r, b => .newline (r.append b)
  | .comment s r, b => .comment s (r.append b)

instance : Append Body := ⟨Body.append⟩

/-- Modelled from the spec: the Condition capability consumed by the core —
`SourceIncludesVariable() bool` and `appendModuleAttribute(body)`, the
latter modelled by the body it appends. Concrete variants are out of
scope; a nil Go interface value is `Option.none` at the use site. -/
structure Condition where
  sourceIncludesVariable : Bool
  moduleAttr : Body
deriving Repr, DecidableEq

/-- `RootModuleInputData` from root.go. `Backend` is `none` for a nil Go
map; `backend` is the private field set by `init`. -/
structure RootModuleInputData where
  Backend : Option (List (String × HclValue))
  Providers : List NamedBlock
  ProviderInfo : List (String × HclValue)
  Services : List Service
  Task : Task
  Variables : List (String × HclValue)
  Condition : Option Condition
  Path : String
  FilePerms : Nat
  skipOverride : Bool
  backend : Option NamedBlock
deriving Repr, DecidableEq

/-- Sort providers by name ascending: `sort.Slice` in
`RootModuleInputData.init`. -/
def sortProviders (l : List NamedBlock) : List NamedBlock :=
  sortByKey NamedBlock.Name l

/-- Sort services by name ascending: `sort.Slice` in
`RootModuleInputData.init`. -/
def sortServices (l : List Service) : List Service :=
  sortByKey Service.Name l

/-- `RootModuleInputData.init` from root.go: materialize the backend
NamedBlock (or replace a nil backend map by an empty one) and sort
Providers and Services by name. -/
def RootModuleInputData.init (d : RootModuleInputData) : RootModuleInputData :=
  let d1 :=
    match d.Backend with
    | some m => { d with backend := some (NewNamedBlock m) }
    | none => { d with Backend := some [] }
  { d1 with
    Providers := sortProviders d1.Providers
    Services := sortServices d1.Services }

/-- The pinned Terraform version constraint
(`version.CompatibleTerraformVersionConstraint`; the version package is not
under src/ — the concrete string is irrelevant to every claim). -/
def TerraformRequiredVersion : String := ">= 0.13.0, < 0.14"

/-- The body of the generated backend block: the backend's attributes in
ascending name order, each set as a literal value (the loop over
`backend.SortedAttributes()` in `appendRootTerraformBlock`). -/
def backendAttrsBody (b : NamedBlock) : Body :=
  b.SortedAttributes.foldr
    (fun attr acc => .attrLit attr (assocGet b.Variables attr) acc) .nil

/-- The interior of the generated `terraform` block: the required version
constraint, the optional `required_providers` block (present when
provider metadata was supplied), and the optional backend block (omitted
when no backend NamedBlock is set or its name is empty). -/
def terraformBlockChild (backend : Option NamedBlock)
    (providerInfo : List (String × HclValue)) : Body :=
  let requiredProviders : Body :=
    if providerInfo.length ≠ 0 then
      .block "required_providers" []
        (((sortedKeys providerInfo).filterMap (fun pName =>
            (providerInfo.find? (fun p => p.1 = pName)).map
              (fun p => (pName, p.2)))).foldr
          (fun kv acc => .attrLit kv.1 kv.2 acc) .nil)
        .nil
    else .nil
  let backendBlock : Body :=
    match backend with
    | none => .nil
    | some b =>
      if b.Name = "" then .nil
      else .block "backend" [b.Name] (backendAttrsBody b) .nil
  .attrLit "required_version" (.str TerraformRequiredVersion)
    (requiredProviders ++ backendBlock)

/-- `appendRootTerraformBlock` from root.go. -/
def appendRootTerraformBlock (backend : Option NamedBlock)
    (providerInfo : List (String × HclValue)) : Body :=
  .block "terraform" [] (terraformBlockChild backend providerInfo) .nil

/-- The body contributed by one attribute of a provider block: skip
`alias` and `auto_commit`; expand an object-typed value into a nested
block of traversals over its keys in ascending order; otherwise a single
traversal. -/
def providerAttrItems (p : NamedBlock) (attr : String) : Body :=
  if attr = "alias" then .nil
  else if attr = "auto_commit" then .nil
  else
    let val := assocGet p.Variables attr
    if val.IsObjectType then
      .block attr []
        ((sortStrings val.objKeys).foldr
          (fun subAttr acc =>
            .attrTrav subAttr ["var", p.Name, attr, subAttr] acc) .nil)
        .nil
    else .attrTrav attr ["var", p.Name, attr] .nil

/-- The body of the provider block generated for one NamedBlock: its
attributes in ascending name order, suppressed attributes dropped. -/
def providerBlockBody (p : NamedBlock) : Body :=
  p.SortedAttributes.foldr (fun attr acc => providerAttrItems p attr ++ acc) .nil

/-- The single provider block generated for one NamedBlock. -/
def providerBlock (p : NamedBlock) : Body :=
  .block "provider" [p.Name] (providerBlockBody p) .nil

/-- `appendRootProviderBlocks` from root.go: one provider block per
NamedBlock in the given order; the indexed loop appends a blank line
after each block except the one at `lastIdx`. -/
def appendRootProviderBlocks : List NamedBlock → Body
  | [] => .nil
  | [p] => providerBlock p
  | p :: q :: rest =>
    providerBlock p ++ Body.newline .nil ++ appendRootProviderBlocks (q :: rest)

/-- `appendComment` from root.go: a `# text` comment token followed by a
newline. -/
def appendComment (text : String) : Body :=
  .comment text (.newline .nil)

/-- Modelled from the spec: `Variables.Keys` (templates/hcltmpl is not
under src/) — the declared operator variable names, stable order as
provided. -/
def VariablesKeys (v : List (String × HclValue)) : List String :=
  v.map Prod.fst

/-- The operator variables' traversal attributes of the module block. -/
def varTravsBody (varNames : List String) : Body :=
  varNames.foldr (fun name acc => .attrTrav name ["var", name] acc) .nil

/-- The interior of the generated module block: source, optional version,
the services traversal, the optional condition attribute, and the
operator variables preceded by a blank line when present. -/
def moduleBlockChild (source version : String) (cond : Option Condition)
    (varNames : List String) : Body :=
  Body.attrLit "source" (.str source)
    ((if version.length > 0 then
        Body.attrLit "version" (.str version) .nil
      else .nil)
      ++ (Body.attrTrav "services" ["var", "services"] .nil
        ++ ((match cond with
             | some c =>
               if c.sourceIncludesVariable then c.moduleAttr else .nil
             | none => .nil)
          ++ ((if varNames.length ≠ 0 then Body.newline .nil else .nil)
            ++ varTravsBody varNames))))

/-- `appendRootModuleBlock` from root.go: optional description comment,
then the `module` block labeled with the task name. -/
def appendRootModuleBlock (task : Task) (cond : Option Condition)
    (varNames : List String) : Body :=
  (if task.Description ≠ "" then appendComment task.Description else .nil)
    ++ Body.block "module" [task.Name]
        (moduleBlockChild task.Source task.Version cond varNames) .nil

/-- The body of main.tf above the module block, as assembled by
`newMainTF`: a blank line, the terraform block, a blank line, the
provider blocks, and a final blank line. -/
def mainTFPreBody (d : RootModuleInputData) : Body :=
  Body.newline
    (appendRootTerraformBlock d.backend d.ProviderInfo
      ++ (Body.newline .nil
        ++ (appendRootProviderBlocks d.Providers ++ Body.newline .nil)))

/-- The full body of main.tf as assembled by `newMainTF` from root.go. -/
def mainTFBody (d : RootModuleInputData) : Body :=
  mainTFPreBody d
    ++ appendRootModuleBlock d.Task d.Condition (VariablesKeys d.Variables)

/-- One character of hclwrite quoted-string escaping
(`escapeQuotedStringLit`): backslash, double quote, newline and carriage
return are escaped; other characters pass through. -/
def escapeChar (c : Char) : List Char :=
  if c = '"' then ['\\', '"']
  else if c = '\\' then ['\\', '\\']
  else if c = '\n' then ['\\', 'n']
  else if c = '\r' then ['\\', 'r']
  else [c]

/-- hclwrite escaping of a string rendered inside double quotes. -/
def escapeString (s : String) : String :=
  String.mk (s.data.flatMap escapeChar)

/-- A double-quoted, escaped string literal. -/
def quoted (s : String) : String :=
  "\"" ++ escapeString s ++ "\""

mutual

/-- Literal rendering of an `HclValue` (hclwrite rendering of a cty
value); object fields are rendered in the given order.
`renderFieldSeq` renders the field sequence of an object. -/
def renderValue : HclValue → String
  | .str s => quoted s
  | .bool b => if b then "true" else "false"
  | .int n => toString n
  | .objNil => "\x7b " ++ "\x7d"
  | .objCons k v rest =>
      "\x7b " ++ k ++ " = " ++ renderValue v ++ " " ++ renderFieldSeq rest ++ "\x7d"

/-- Renders the remaining fields of an object value. -/
def renderFieldSeq : HclValue → String
  | .objCons k v rest => k ++ " = " ++ renderValue v ++ " " ++ renderFieldSeq rest
  | _ => ""

end

/-- Two-space indentation per nesting level, as produced by
`hclwrite.Format`. -/
def indentStr (n : Nat) : String :=
  String.mk (List.replicate (2 * n) ' ')

/-- The rendering of a block's labels: one quoted literal per label, each
preceded by a space. -/
def labelsStr : List String → String
  | [] => ""
  | l :: rest => " " ++ quoted l ++ labelsStr rest

/-- Deterministic serialization of a body at an indentation level,
standing for hclwrite token output followed by `hclwrite.Format`. -/
def renderB : Nat → Body → String
  | _, .nil => ""
  | ind, .attrLit n v rest =>
      indentStr ind ++ n ++ " = " ++ renderValue v ++ "\n" ++ renderB ind rest
  | ind, .attrTrav n p rest =>
      indentStr ind ++ n ++ " = " ++ String.intercalate "." p ++ "\n"
        ++ renderB ind rest
  | ind, .block t ls child rest =>
      indentStr ind ++ t ++ labelsStr ls ++ " \x7b\n" ++ renderB (ind + 1) child
        ++ indentStr ind ++ "\x7d\n" ++ renderB ind rest
  | ind, .newline rest => "\n" ++ renderB ind rest
  | ind, .comment c rest => indentStr ind ++ "# " ++ c ++ renderB ind rest

/-- `RootPreamble` from root.go: the repository-wide warning header. -/
def RootPreamble : String :=
  "# This file is generated by Consul Terraform Sync.\n"
    ++ "#\n"
    ++ "# The HCL blocks, arguments, variables, and values are derived from the\n"
    ++ "# operator configuration for Sync. Any manual changes to this file\n"
    ++ "# may not be preserved and could be overwritten by a subsequent update.\n"
    ++ "#\n"

/-- `TaskPreamble` from root.go instantiated by `fmt.Fprintf`: the
task-scoped header with the task name and description. -/
def taskPreamble (name desc : String) : String :=
  "# Task: " ++ name ++ "\n# Description: " ++ desc ++ "\n"

/-- Write-failure environment: which of the underlying writer operations
fail. Go injects these failures through the `io.Writer`; the model
injects them as explicit flags. -/
structure WriteEnv where
  rootPreambleOk : Bool
  taskPreambleOk : Bool
  contentOk : Bool
deriving Repr, DecidableEq

/-- The environment in which every write succeeds. -/
def WriteEnv.allOk : WriteEnv :=
  { rootPreambleOk := true, taskPreambleOk := true, contentOk := true }

/-- A write error, as surfaced by the Go `io.Writer`. -/
inductive WriteErr where
  | writeFailed
deriving Repr, DecidableEq

/-- `writePreamble` from root.go: writes `RootPreamble` (logging and
dropping its error), then writes the task preamble, and returns the error
of that second write. The first component is the bytes successfully
written. -/
def writePreamble (env : WriteEnv) (task : Task) : String × Option WriteErr :=
  let rootPart := if env.rootPreambleOk then RootPreamble else ""
  let err1 : Option WriteErr :=
    if env.rootPreambleOk then none else some .writeFailed
  let _ := err1
  let taskPart :=
    if env.taskPreambleOk then taskPreamble task.Name task.Description else ""
  let err2 : Option WriteErr :=
    if env.taskPreambleOk then none else some .writeFailed
  (rootPart ++ taskPart, err2)

/-- The formatted HCL bytes of main.tf (everything below the preamble). -/
def mainTFHcl (d : RootModuleInputData) : String :=
  renderB 0 (mainTFBody d)

/-- `newMainTF` from root.go: the preamble first (a non-nil error returned
by `writePreamble` aborts the renderer), then the formatted HCL content.
On success the result is the bytes written to the file. -/
def newMainTF (env : WriteEnv) (d : RootModuleInputData) :
    Except WriteErr String :=
  match writePreamble env d.Task with
  | (_, some e) => .error e
  | (written, none) =>
    if env.contentOk then .ok (written ++ mainTFHcl d)
    else .error .writeFailed

/-- The main.tf bytes produced by a fully successful render. -/
def mainTFContent (d : RootModuleInputData) : String :=
  RootPreamble ++ taskPreamble d.Task.Name d.Task.Description ++ mainTFHcl d

/-- `hcatQuery` from root.go: the hcat query string for one Consul
service, assembled from the optional datacenter, namespace, tag and
filter parameters. -/
def hcatQuery (s : Service) : String :=
  let opts : List String :=
    (if s.Datacenter ≠ "" then ["dc=" ++ s.Datacenter] else [])
      ++ (if s.Namespace ≠ "" then ["ns=" ++ s.Namespace] else [])
      ++ (if s.Tag ≠ "" then ["\\\"" ++ s.Tag ++ "\\\" in Service.Tags"] else [])
      ++ (if s.Filter ≠ "" then
            [trimNewlines (escapeQuotes s.Filter)]
          else [])
  let query := quoted s.Name
  if opts.length > 0 then
    query ++ " \"" ++ String.intercalate "\" \"" opts ++ "\""
  else query
where
  /-- `strings.ReplaceAll(filter, quote, backslash-quote)`. -/
  escapeQuotes (s : String) : String :=
    String.mk (s.data.flatMap (fun c => if c = '"' then ['\\', c] else [c]))
  /-- `strings.Trim(filter, newline)`. -/
  trimNewlines (s : String) : String :=
    String.mk
      (((s.data.dropWhile (fun c => c = '\n')).reverse.dropWhile
        (fun c => c = '\n')).reverse)

/-- `RootFilename` from root.go. -/
def RootFilename : String := "main.tf"

/-- `VarsFilename` from root.go. -/
def VarsFilename : String := "variables.tf"

/-- `ModuleVarsFilename` from root.go. -/
def ModuleVarsFilename : String := "variables.module.tf"

/-- `TFVarsTmplFilename` from root.go. -/
def TFVarsTmplFilename : String := "terraform.tfvars.tmpl"

/-- `ProvidersTFVarsFilename` from root.go. -/
def ProvidersTFVarsFilename : String := "providers.tfvars"

/-- The preamble common to every generated file of a task. -/
def filePreamble (d : RootModuleInputData) : String :=
  RootPreamble ++ taskPreamble d.Task.Name d.Task.Description

/-- Modelled from the spec: `newVariablesTF` (templates/tftmpl/variables.go
is not under src/) — the root variable-declarations file: the fixed
`services` variable, one declaration per Provider, and one per
condition-injected variable when the condition signals it needs one. -/
def variablesTFContent (d : RootModuleInputData) : String :=
  filePreamble d
    ++ "variable \"services\" \x7b\n  type = map\n\x7d\n"
    ++ String.join (d.Providers.map (fun p =>
        "variable " ++ quoted p.Name ++ " \x7b\n  type = object\n\x7d\n"))
    ++ (match d.Condition with
        | some c =>
          if c.sourceIncludesVariable then
            "variable \"condition\" \x7b\n  type = any\n\x7d\n"
          else ""
        | none => "")

/-- Modelled from the spec: `newModuleVariablesTF` (not under src/) — one
declaration per entry of the operator Variables set, in the order
provided. -/
def moduleVariablesTFContent (d : RootModuleInputData) : String :=
  filePreamble d
    ++ String.join ((VariablesKeys d.Variables).map (fun k =>
        "variable " ++ quoted k ++ " \x7b\x7d\n"))

/-- Modelled from the spec: `newTFVarsTmpl` (not under src/) — the
runtime-variable template populating `services` per Service query, one
entry per Service in the stored (sorted) order. -/
def tfvarsTmplContent (d : RootModuleInputData) : String :=
  filePreamble d
    ++ "services = \x7b\n"
    ++ String.join (d.Services.map (fun s =>
        "  \x7b\x7b " ++ hcatQuery s ++ " \x7d\x7d\n"))
    ++ "\x7d\n"

/-- Modelled from the spec: `newProvidersTFVars` (not under src/) — the
literal values populating each Provider's variable, suppressed control
attributes omitted, providers and attributes in sorted order. -/
def providersTFVarsContent (d : RootModuleInputData) : String :=
  filePreamble d
    ++ String.join (d.Providers.map (fun p =>
        p.Name ++ " = \x7b\n"
          ++ String.join (p.SortedAttributes.map (fun attr =>
              if attr = "alias" ∨ attr = "auto_commit" then ""
              else "  " ++ attr ++ " = "
                ++ renderValue (assocGet p.Variables attr) ++ "\n"))
          ++ "\x7d\n"))

/-- The five files of one rendered bundle with their contents, for a fully
successful render of already-initialized input. -/
def bundleFiles (d : RootModuleInputData) : List (String × String) :=
  [(RootFilename, mainTFContent d),
   (VarsFilename, variablesTFContent d),
   (ModuleVarsFilename, moduleVariablesTFContent d),
   (TFVarsTmplFilename, tfvarsTmplContent d),
   (ProvidersTFVarsFilename, providersTFVarsContent d)]

/-- The rendered bundle of an input: normalization by `init`, then the
per-file renderers. -/
def bundleContents (d : RootModuleInputData) : List (String × String) :=
  bundleFiles d.init

/-- A file on disk: its bytes and permission bits. -/
structure FileSt where
  content : String
  perms : Nat
deriving Repr, DecidableEq

/-- The modelled filesystem under the target directory: an association
list from filename to file state. -/
abbrev FS := List (String × FileSt)

/-- The state of a file, if present. -/
def fsGet (fs : FS) (name : String) : Option FileSt :=
  (fs.find? (fun p => p.1 = name)).map (fun p => p.2)

/-- `fileExists` from root.go, over the modelled filesystem. -/
def fsHas (fs : FS) (name : String) : Bool :=
  (fsGet fs name).isSome

/-- Create-or-truncate a file and set its state. -/
def fsSet (fs : FS) (name : String) (st : FileSt) : FS :=
  match fs with
  | [] => [(name, st)]
  | (n, old) :: rest =>
    if n = name then (n, st) :: rest else (n, old) :: fsSet rest name st

/-- A per-file renderer: `tfFileFunc` from root.go. -/
abbrev Renderer := WriteEnv → RootModuleInputData → Except WriteErr String

/-- The union of `rootFileFuncs` and `tfvarsFileFuncs` built by
`InitRootModule`. Only the main.tf renderer is sensitive to the
write-failure environment; the other renderers are spec-modelled and
always succeed. Go iterates this map in unspecified order; the model
fixes one order, which no claim depends on. -/
def fileFuncsAll : List (String × Renderer) :=
  [(RootFilename, fun env d => newMainTF env d),
   (VarsFilename, fun _ d => .ok (variablesTFContent d)),
   (ModuleVarsFilename, fun _ d => .ok (moduleVariablesTFContent d)),
   (TFVarsTmplFilename, fun _ d => .ok (tfvarsTmplContent d)),
   (ProvidersTFVarsFilename, fun _ d => .ok (providersTFVarsContent d))]

/-- `initModule` from root.go, threaded over the modelled filesystem.
Per file: skip variables.module.tf when the Variables set is empty; skip
an existing destination when `skipOverride` is set; otherwise create the
file with the configured permissions and run its renderer, aborting the
bundle on a renderer error. Returns the final filesystem and the names
written, in iteration order. -/
def initModule (env : WriteEnv) (d : RootModuleInputData) :
    List (String × Renderer) → FS → Except WriteErr (FS × List String)
  | [], fs => .ok (fs, [])
  | (filename, fn) :: rest, fs =>
    if filename = ModuleVarsFilename ∧ d.Variables.length = 0 then
      initModule env d rest fs
    else if fsHas fs filename ∧ d.skipOverride then
      initModule env d rest fs
    else
      match fn env d with
      | .error e => .error e
      | .ok content =>
        match initModule env d rest
            (fsSet fs filename { content := content, perms := d.FilePerms }) with
        | .error e => .error e
        | .ok (fs2, written) => .ok (fs2, filename :: written)

/-- `InitRootModule` from root.go: normalize the input with `init`, then
run `initModule` over the union of the file-renderer maps. -/
def InitRootModule (env : WriteEnv) (d : RootModuleInputData) (fs : FS) :
    Except WriteErr (FS × List String) :=
  initModule env d.init fileFuncsAll fs

/-- The list of files written by a bundle render result. -/
def writtenOf (r : Except WriteErr (FS × List String)) : List String :=
  match r with
  | .ok p => p.2
  | .error _ => []

/-! ### Basic lemmas about the embedding -/

theorem Body.append_eq (a b : Body) : a ++ b = a.append b := rfl

theorem Body.append_nil (a : Body) : a.append .nil = a := by
  induction a <;> simp [Body.append, *]

theorem Body.append_assoc (a b c : Body) :
    (a.append b).append c = a.append (b.append c) := by
  induction a <;> simp [Body.append, *]

theorem renderB_append (ind : Nat) (a b : Body) :
    renderB ind (a.append b) = renderB ind a ++ renderB ind b := by
  induction a <;> simp [Body.append, renderB, String.append_assoc, *]

/-- Top-level name scan of a body sequence: does any node (attribute or
nested block) of the sequence carry the given name? -/
def Body.hasName (n : String) : Body → Bool
  | .nil => false
  | .attrLit m _ r => m == n || r.hasName n
  | .attrTrav m _ r => m == n || r.hasName n
  | .block bt _ _ r => bt == n || r.hasName n
  | .newline r => r.hasName n
  | .comment _ r => r.hasName n

theorem Body.hasName_append (n : String) (a b : Body) :
    (a.append b).hasName n = (a.hasName n || b.hasName n) := by
  induction a <;> simp [Body.append, Body.hasName, *, Bool.or_assoc]

theorem hasName_providerAttrItems (p : NamedBlock) (attr n : String) :
    (providerAttrItems p attr).hasName n =
      (!(attr == "alias") && !(attr == "auto_commit") && attr == n) := by
  unfold providerAttrItems
  by_cases h1 : attr = "alias"
  · simp [h1, Body.hasName]
  · by_cases h2 : attr = "auto_commit"
    · simp [h1, h2, Body.hasName]
    · cases hval : (assocGet p.Variables attr).IsObjectType <;>
        simp [h1, h2, hval, Body.hasName]

theorem hasName_attrFold (p : NamedBlock) (n : String) :
    ∀ attrs : List String,
      (attrs.foldr (fun attr acc => providerAttrItems p attr ++ acc)
        Body.nil).hasName n =
      attrs.any (fun attr =>
        !(attr == "alias") && !(attr == "auto_commit") && attr == n)
  | [] => rfl
  | attr :: rest => by
    have ih := hasName_attrFold p n rest
    simp only [Body.append_eq] at ih ⊢
    simp only [List.foldr_cons, Body.hasName_append,
      hasName_providerAttrItems, List.any_cons, ih]

theorem sortByKey_perm {α : Type} (f : α → String) (l : List α) :
    List.Perm (sortByKey f l) l := by
  unfold sortByKey
  exact List.perm_insertionSort _ l

/-- Claim C2: for every Provider NamedBlock, the rendered provider block never
contains an attribute (or nested block) named `alias` or `auto_commit`,
regardless of whether the NamedBlock's attribute set contains them, and
every other attribute of the block is emitted under its own name. -/
theorem provider_block_suppresses_control_attrs (p : NamedBlock) :
    (providerBlockBody p).hasName "alias" = false ∧
    (providerBlockBody p).hasName "auto_commit" = false ∧
    (∀ attr, attr ∈ p.Variables.map Prod.fst → attr ≠ "alias" →
      attr ≠ "auto_commit" → (providerBlockBody p).hasName attr = true) := by
  refine ⟨?_, ?_, ?_⟩
  · rw [providerBlockBody, hasName_attrFold]
    apply List.any_eq_false.mpr
    intro a _
    by_cases h : a = "alias" <;> simp [h]
  · rw [providerBlockBody, hasName_attrFold]
    apply List.any_eq_false.mpr
    intro a _
    by_cases h : a = "auto_commit" <;> simp [h]
  · intro attr hmem h1 h2
    rw [providerBlockBody, hasName_attrFold]
    apply List.any_eq_true.mpr
    refine ⟨attr, ?_, by simp [h1, h2]⟩
    have hperm : List.Perm p.SortedAttributes (p.Variables.map Prod.fst) := by
      unfold NamedBlock.SortedAttributes sortedKeys sortStrings
      exact sortByKey_perm _ _
    exact hperm.mem_iff.mpr hmem

/-- Witness for C2 at a concrete provider block carrying `alias`,
`auto_commit` and one ordinary attribute. -/
theorem provider_block_suppresses_control_attrs_witness :
    (providerBlockBody
      { Name := "pw",
        Variables := [("alias", .str "x"), ("auto_commit", .bool true),
                      ("token", .str "t")] }).hasName "alias" = false ∧
    (providerBlockBody
      { Name := "pw",
        Variables := [("alias", .str "x"), ("auto_commit", .bool true),
                      ("token", .str "t")] }).hasName "auto_commit" = false ∧
    (providerBlockBody
      { Name := "pw",
        Variables := [("alias", .str "x"), ("auto_commit", .bool true),
                      ("token", .str "t")] }).hasName "token" = true :=
  ⟨(provider_block_suppresses_control_attrs _).1,
   (provider_block_suppresses_control_attrs _).2.1,
   (provider_block_suppresses_control_attrs _).2.2 "token" (by decide)
     (by decide) (by decide)⟩

/-! ### C3: the provider-block algorithm -/

/-- Concatenation of a list of bodies. -/
def Body.concatList : List Body → Body
  | [] => .nil
  | b :: rest => b.append (Body.concatList rest)

/-- The provider block described by the claim for one NamedBlock: a block
labeled with the provider name whose body handles each attribute in
ascending name order — skipping the suppressed `alias` and `auto_commit`
control attributes, expanding an object-typed value into a nested block
with one `var.<providerName>.<attribute>.<key>` traversal per key in
ascending order, and setting `var.<providerName>.<attribute>` for a
non-object value. -/
def providerBlockSpec (p : NamedBlock) : Body :=
  Body.block "provider" [p.Name]
    ((sortStrings (p.Variables.map Prod.fst)).foldr
      (fun attr acc =>
        if attr = "alias" ∨ attr = "auto_commit" then acc
        else if (assocGet p.Variables attr).IsObjectType then
          Body.block attr []
            ((sortStrings (assocGet p.Variables attr).objKeys).foldr
              (fun key acc2 =>
                Body.attrTrav key ["var", p.Name, attr, key] acc2) .nil)
            acc
        else Body.attrTrav attr ["var", p.Name, attr] acc)
      .nil)
    .nil

/-- The provider-block sequence described by the claim: the blocks in
order, sibling blocks separated by one blank line, no blank line after
the last. -/
def providerBlocksSpec (providers : List NamedBlock) : Body :=
  Body.concatList
    (List.intersperse (Body.newline .nil) (providers.map providerBlockSpec))

theorem providerAttrItems_append (p : NamedBlock) (attr : String) (acc : Body) :
    providerAttrItems p attr ++ acc =
      (if attr = "alias" ∨ attr = "auto_commit" then acc
       else if (assocGet p.Variables attr).IsObjectType then
         Body.block attr []
           ((sortStrings (assocGet p.Variables attr).objKeys).foldr
             (fun key acc2 =>
               Body.attrTrav key ["var", p.Name, attr, key] acc2) .nil)
           acc
       else Body.attrTrav attr ["var", p.Name, attr] acc) := by
  unfold providerAttrItems
  by_cases h1 : attr = "alias"
  · simp [h1, Body.append_eq, Body.append]
  · by_cases h2 : attr = "auto_commit"
    · simp [h1, h2, Body.append_eq, Body.append]
    · cases hval : (assocGet p.Variables attr).IsObjectType <;>
        simp [h1, h2, hval, Body.append_eq, Body.append]

theorem providerBlock_eq_spec (p : NamedBlock) :
    providerBlock p = providerBlockSpec p := by
  unfold providerBlock providerBlockSpec providerBlockBody
    NamedBlock.SortedAttributes sortedKeys
  congr 1
  induction sortStrings (p.Variables.map Prod.fst) with
  | nil => rfl
  | cons attr rest ih => rw [List.foldr_cons, List.foldr_cons, ih,
      providerAttrItems_append]

/-- Claim C3: the provider-block rendering produces, for a provider list in
sorted order, exactly the sequence described by the spec: per provider a
block labeled with the provider name, attributes in ascending name order
with `alias`/`auto_commit` skipped, object-typed attributes expanded into
a nested block of per-key traversals in ascending key order, non-object
attributes as direct traversals, and a blank line between sibling blocks
but not after the last. -/
theorem provider_blocks_algorithm : ∀ providers : List NamedBlock,
    appendRootProviderBlocks providers = providerBlocksSpec providers
  | [] => rfl
  | [p] => by
    unfold appendRootProviderBlocks providerBlocksSpec
    simp only [List.map_cons, List.map_nil, List.intersperse_single,
      Body.concatList, Body.append_nil, providerBlock_eq_spec]
  | p :: q :: rest => by
    have ih := provider_blocks_algorithm (q :: rest)
    unfold appendRootProviderBlocks providerBlocksSpec
    rw [List.map_cons, List.map_cons, List.intersperse_cons_cons]
    simp only [Body.concatList]
    rw [← List.map_cons providerBlockSpec q rest]
    have : Body.concatList
        (List.intersperse (Body.newline .nil)
          ((q :: rest).map providerBlockSpec)) =
        providerBlocksSpec (q :: rest) := rfl
    rw [this, ← ih, providerBlock_eq_spec, Body.append_eq, Body.append_eq,
      Body.append_assoc]

/-! ### C4: the module-invocation-block algorithm -/

theorem string_length_pos_iff (s : String) : (s.length > 0) ↔ s ≠ "" := by
  rw [gt_iff_lt, Nat.pos_iff_ne_zero, Ne, Ne, String.ext_iff]
  have hl : s.length = s.data.length := rfl
  rw [hl, ← List.length_eq_zero]

/-- The module-invocation block described by the claim: a comment line
holding the description iff it is non-empty; a block labeled with the
task name; `source` (and, iff the version is non-empty, `version`) as
literal strings; `services` as a traversal of `var.services`; the
condition's own attribute iff the condition reports that the module
source references a condition-injected variable; and, preceded by one
blank line exactly when the list is non-empty, one `var.<name>` traversal
per declared variable name in the order provided. -/
def moduleBlockSpec (task : Task) (cond : Option Condition)
    (varNames : List String) : Body :=
  let condSeg : Body :=
    match cond with
    | some c => if c.sourceIncludesVariable then c.moduleAttr else .nil
    | none => .nil
  let varSeg : Body :=
    if varNames = [] then .nil
    else
      Body.newline
        (varNames.foldr (fun n acc => Body.attrTrav n ["var", n] acc) .nil)
  let inner : Body :=
    Body.attrLit "source" (.str task.Source)
      ((if task.Version = "" then .nil
        else Body.attrLit "version" (.str task.Version) .nil).append
        (Body.attrTrav "services" ["var", "services"]
          (condSeg.append varSeg)))
  (if task.Description = "" then .nil
   else Body.comment task.Description (.newline .nil)).append
    (Body.block "module" [task.Name] inner .nil)

/-- Claim C4: the module-invocation block is built exactly as the claim
describes it. -/
theorem module_block_algorithm (task : Task) (cond : Option Condition)
    (varNames : List String) :
    appendRootModuleBlock task cond varNames =
      moduleBlockSpec task cond varNames := by
  unfold appendRootModuleBlock moduleBlockSpec moduleBlockChild varTravsBody
    appendComment
  by_cases hd : task.Description = "" <;>
    by_cases hv : task.Version = "" <;>
      by_cases hn : varNames = [] <;>
        simp [hd, hv, hn, string_length_pos_iff, Body.append_eq, Body.append,
          List.length_eq_zero]

/-! ### C10: a nil condition is harmless -/

/-- The interior of the module block with no condition contribution at
all. -/
def moduleBlockChildNoCond (source version : String)
    (varNames : List String) : Body :=
  Body.attrLit "source" (.str source)
    ((if version.length > 0 then
        Body.attrLit "version" (.str version) .nil
      else .nil)
      ++ (Body.attrTrav "services" ["var", "services"] .nil
        ++ ((if varNames.length ≠ 0 then Body.newline .nil else .nil)
          ++ varTravsBody varNames)))

/-- The full module-block segment with no condition contribution. -/
def moduleBlockNoCond (task : Task) (varNames : List String) : Body :=
  (if task.Description ≠ "" then appendComment task.Description else .nil)
    ++ Body.block "module" [task.Name]
        (moduleBlockChildNoCond task.Source task.Version varNames) .nil

theorem init_Condition (d : RootModuleInputData) :
    d.init.Condition = d.Condition := by
  unfold RootModuleInputData.init
  cases d.Backend <;> rfl

theorem init_Task (d : RootModuleInputData) : d.init.Task = d.Task := by
  unfold RootModuleInputData.init
  cases d.Backend <;> rfl

/-- Claim C10: with a nil Condition the render of main.tf succeeds, and the
module block receives no condition-injected attribute: the body equals
the construction with the condition segment absent. -/
theorem nil_condition_safe (d : RootModuleInputData)
    (h : d.Condition = none) :
    (newMainTF WriteEnv.allOk d.init).isOk = true ∧
    mainTFBody d.init =
      mainTFPreBody d.init
        ++ moduleBlockNoCond d.init.Task (VariablesKeys d.init.Variables) := by
  constructor
  · rfl
  · unfold mainTFBody appendRootModuleBlock moduleBlockNoCond
    rw [init_Condition, h]
    rfl

/-- A sample input with no condition, used by witnesses. -/
def sampleData : RootModuleInputData :=
  { Backend := none,
    Providers := [{ Name := "consul", Variables := [("address", .str "c:8500")] }],
    ProviderInfo := [], Services := [],
    Task := { Description := "sample", Name := "t1", Source := "./mod",
              Version := "" },
    Variables := [], Condition := none, Path := "p", FilePerms := 420,
    skipOverride := false, backend := none }

/-- Witness for C10 at a concrete input with a nil condition. -/
theorem nil_condition_safe_witness :
    (newMainTF WriteEnv.allOk sampleData.init).isOk = true ∧
    mainTFBody sampleData.init =
      mainTFPreBody sampleData.init
        ++ moduleBlockNoCond sampleData.init.Task
            (VariablesKeys sampleData.init.Variables) :=
  nil_condition_safe sampleData rfl

/-! ### Order properties of the comparator -/

theorem charListLe_total : ∀ as bs,
    charListLe as bs = true ∨ charListLe bs as = true
  | [], _ => Or.inl rfl
  | _ :: _, [] => Or.inr rfl
  | a :: as, b :: bs => by
    simp only [charListLe]
    by_cases hab : a < b
    · left; simp [hab]
    · by_cases hba : b < a
      · right; simp [hba]
      · rcases charListLe_total as bs with h | h
        · left; simp [hab, hba, h]
        · right; simp [hab, hba, h]

theorem charListLe_trans : ∀ as bs cs, charListLe as bs = true →
    charListLe bs cs = true → charListLe as cs = true
  | [], _, _, _, _ => rfl
  | _ :: _, [], _, h1, _ => by simp [charListLe] at h1
  | _ :: _, _ :: _, [], _, h2 => by simp [charListLe] at h2
  | a :: as, b :: bs, c :: cs, h1, h2 => by
    simp only [charListLe] at h1 h2 ⊢
    by_cases hab : a < b
    · by_cases hbc : b < c
      · simp [lt_trans hab hbc]
      · by_cases hcb : c < b
        · simp [hbc, hcb] at h2
        · have hbc' : b = c := le_antisymm (not_lt.mp hcb) (not_lt.mp hbc)
          subst hbc'
          simp [hab]
    · by_cases hba : b < a
      · simp [hab, hba] at h1
      · have hab' : a = b := le_antisymm (not_lt.mp hba) (not_lt.mp hab)
        subst hab'
        simp only [hab, hba, if_neg, ite_false, ite_self] at h1
        by_cases hac : a < c
        · simp [hac]
        · by_cases hca : c < a
          · simp [hac, hca] at h2
          · simp only [hac, hca, if_neg, ite_false, ite_self] at h2
            simp [hac, hca, charListLe_trans as bs cs h1 h2]

theorem charListLe_antisymm : ∀ as bs, charListLe as bs = true →
    charListLe bs as = true → as = bs
  | [], [], _, _ => rfl
  | [], _ :: _, _, h2 => by simp [charListLe] at h2
  | _ :: _, [], h1, _ => by simp [charListLe] at h1
  | a :: as, b :: bs, h1, h2 => by
    simp only [charListLe] at h1 h2
    by_cases hab : a < b
    · simp [hab, asymm hab] at h2
    · by_cases hba : b < a
      · simp [hab, hba] at h1
      · have hE : a = b := le_antisymm (not_lt.mp hba) (not_lt.mp hab)
        subst hE
        simp only [hab, hba, if_neg, ite_false, ite_self] at h1 h2
        rw [charListLe_antisymm as bs h1 h2]

theorem strLe_total (a b : String) : strLe a b = true ∨ strLe b a = true :=
  charListLe_total a.data b.data

theorem strLe_trans {a b c : String} (h1 : strLe a b = true)
    (h2 : strLe b c = true) : strLe a c = true :=
  charListLe_trans a.data b.data c.data h1 h2

theorem strLe_antisymm {a b : String} (h1 : strLe a b = true)
    (h2 : strLe b a = true) : a = b :=
  String.ext (charListLe_antisymm a.data b.data h1 h2)

theorem sortByKey_sorted {α : Type} (f : α → String) (l : List α) :
    (sortByKey f l).Pairwise (fun a b => strLe (f a) (f b) = true) := by
  unfold sortByKey
  haveI : IsTotal α (fun a b => strLe (f a) (f b) = true) :=
    ⟨fun a b => strLe_total (f a) (f b)⟩
  haveI : IsTrans α (fun a b => strLe (f a) (f b) = true) :=
    ⟨fun _ _ _ h1 h2 => strLe_trans h1 h2⟩
  exact List.sorted_insertionSort _ l

/-! ### C8: the backend block -/

/-- The first block with the given type in a body sequence, with its
labels and child body. -/
def Body.findBlock (t : String) : Body → Option (List String × Body)
  | .nil => none
  | .attrLit _ _ r => r.findBlock t
  | .attrTrav _ _ r => r.findBlock t
  | .block bt ls c r => if bt = t then some (ls, c) else r.findBlock t
  | .newline r => r.findBlock t
  | .comment _ r => r.findBlock t

theorem init_backend_of_some (d : RootModuleInputData)
    (m : List (String × HclValue)) (h : d.Backend = some m) :
    d.init.backend = some (NewNamedBlock m) := by
  unfold RootModuleInputData.init
  rw [h]

theorem init_backend_of_none (d : RootModuleInputData)
    (h : d.Backend = none) : d.init.backend = d.backend := by
  unfold RootModuleInputData.init
  rw [h]

theorem findBlock_terraform (d : RootModuleInputData) :
    (mainTFBody d).findBlock "terraform" =
      some ([], terraformBlockChild d.backend d.ProviderInfo) := by
  unfold mainTFBody mainTFPreBody appendRootTerraformBlock
  simp [Body.append_eq, Body.append, Body.findBlock]

theorem findBlock_backend (backend : Option NamedBlock)
    (pi : List (String × HclValue)) :
    (terraformBlockChild backend pi).findBlock "backend" =
      match backend with
      | none => none
      | some b =>
        if b.Name = "" then none
        else some ([b.Name], backendAttrsBody b) := by
  unfold terraformBlockChild
  cases backend with
  | none =>
    by_cases hpi : pi.length ≠ 0 <;>
      simp [hpi, Body.findBlock, Body.append_eq, Body.append]
  | some b =>
    by_cases hb : b.Name = "" <;>
      by_cases hpi : pi.length ≠ 0 <;>
        simp [hb, hpi, Body.findBlock, Body.append_eq, Body.append]

/-- Claim C8 (amended): if a backend NamedBlock with a non-empty name is set, the
terraform block of main.tf contains a nested backend block tagged with
the backend's name, whose attributes appear in ascending name order as
literal values (`backendAttrsBody`); with no backend set (a nil backend
map and the private field still at its zero value), no backend block is
emitted. -/
theorem backend_block_emission (d : RootModuleInputData) :
    (mainTFBody d.init).findBlock "terraform" =
      some ([], terraformBlockChild d.init.backend d.init.ProviderInfo) ∧
    (∀ m, d.Backend = some m → (NewNamedBlock m).Name ≠ "" →
      (terraformBlockChild d.init.backend d.init.ProviderInfo).findBlock
          "backend" =
        some ([(NewNamedBlock m).Name], backendAttrsBody (NewNamedBlock m)) ∧
      ((NewNamedBlock m).SortedAttributes).Pairwise
        (fun a b => strLe a b = true)) ∧
    (d.Backend = none → d.backend = none →
      (terraformBlockChild d.init.backend d.init.ProviderInfo).findBlock
          "backend" = none) := by
  refine ⟨findBlock_terraform d.init, ?_, ?_⟩
  · intro m hm hname
    rw [init_backend_of_some d m hm, findBlock_backend]
    refine ⟨by simp [hname], ?_⟩
    unfold NamedBlock.SortedAttributes sortedKeys sortStrings
    exact sortByKey_sorted _ _
  · intro hm hpriv
    rw [init_backend_of_none d hm, hpriv, findBlock_backend]

/-- A sample input whose backend map is set to a consul backend. -/
def sampleBackendData : RootModuleInputData :=
  { sampleData with
    Backend := some [("consul", .objCons "path" (.str "kv") .objNil)] }

/-- Witness for C8 at a concrete input with a named backend. -/
theorem backend_block_emission_witness :
    (terraformBlockChild sampleBackendData.init.backend
        sampleBackendData.init.ProviderInfo).findBlock "backend" =
      some (["consul"],
        backendAttrsBody
          (NewNamedBlock [("consul", .objCons "path" (.str "kv") .objNil)])) ∧
    ((NewNamedBlock
        [("consul", .objCons "path" (.str "kv") .objNil)]).SortedAttributes).Pairwise
      (fun a b => strLe a b = true) := by
  have h := (backend_block_emission sampleBackendData).2.1
    [("consul", .objCons "path" (.str "kv") .objNil)] rfl (by decide)
  exact ⟨h.1, h.2⟩

/-- An input whose backend map is supplied but empty (non-nil empty Go
map): a backend NamedBlock is set by `init`, but with an empty name. -/
def emptyBackendData : RootModuleInputData :=
  { sampleData with Backend := some [] }

/-- Counterexample to C8 as stated: with a supplied-but-empty backend
map, a backend NamedBlock is set, yet no backend block appears inside the
terraform block. -/
theorem backend_block_missing_counterexample :
    emptyBackendData.Backend = some [] ∧
    emptyBackendData.init.backend = some (NewNamedBlock []) ∧
    (terraformBlockChild emptyBackendData.init.backend
        emptyBackendData.init.ProviderInfo).findBlock "backend" = none :=
  ⟨rfl, by decide, by decide⟩

/-! ### C6: distinct task names give distinct main.tf bytes -/

/-- Replace only the task name of an input. -/
def setTaskName (d : RootModuleInputData) (n : String) : RootModuleInputData :=
  { d with Task := { d.Task with Name := n } }

/-- The fixed preamble bytes before the task name. -/
def mainHead : String := RootPreamble ++ "# Task: "

/-- The bytes of main.tf between the task name's two occurrences (as
preamble text and as the module block label): the rest of the task
preamble, the rendered body above the module block, the optional
description comment, and the opening of the module block up to the
label's opening quote. -/
def mainMid (d : RootModuleInputData) : String :=
  "\n# Description: " ++ (d.Task.Description ++ ("\n"
    ++ (renderB 0 (mainTFPreBody d)
      ++ ((if d.Task.Description ≠ "" then "# " ++ (d.Task.Description ++ "\n")
           else "")
        ++ ("module" ++ (" " ++ "\""))))))

/-- The bytes of main.tf after the escaped module label. -/
def mainTail (d : RootModuleInputData) : String :=
  "\"" ++ (" \x7b\n"
    ++ (renderB 1 (moduleBlockChild d.Task.Source d.Task.Version d.Condition
        (VariablesKeys d.Variables))
      ++ "\x7d\n"))

theorem indentStr_zero : indentStr 0 = "" := rfl

theorem escapeString_data (s : String) :
    (escapeString s).data = s.data.flatMap escapeChar := rfl

theorem mainTFPreBody_setTaskName (d : RootModuleInputData) (n : String) :
    mainTFPreBody (setTaskName d n) = mainTFPreBody d := rfl

theorem mainTFContent_decomp (d : RootModuleInputData) (n : String) :
    mainTFContent (setTaskName d n) =
      mainHead ++ (n ++ (mainMid d ++ (escapeString n ++ mainTail d))) := by
  by_cases hd : d.Task.Description = "" <;>
    simp [-String.reduceAppend, mainTFContent, taskPreamble, mainTFHcl,
      mainTFBody, mainTFPreBody_setTaskName, appendRootModuleBlock,
      appendComment, mainHead, mainMid, mainTail, setTaskName,
      renderB_append, Body.append_eq, Body.append, renderB, labelsStr,
      quoted, indentStr_zero, hd, String.append_assoc]

theorem append_escape_inj_le (B C x y : List Char)
    (hlen : x.length ≤ y.length)
    (h : x ++ (B ++ (x.flatMap escapeChar ++ C))
       = y ++ (B ++ (y.flatMap escapeChar ++ C))) : x = y := by
  have hx : x <+: y :=
    List.prefix_of_prefix_length_le (h ▸ List.prefix_append x _)
      (List.prefix_append y _) hlen
  obtain ⟨t, rfl⟩ := hx
  have hlen2 := congrArg List.length h
  simp only [List.length_append, List.flatMap_append] at hlen2
  have ht : t.length = 0 := by omega
  rw [List.length_eq_zero] at ht
  rw [ht, List.append_nil]

theorem append_escape_inj (A B C x y : List Char)
    (h : A ++ (x ++ (B ++ (x.flatMap escapeChar ++ C)))
       = A ++ (y ++ (B ++ (y.flatMap escapeChar ++ C)))) : x = y := by
  have h2 := List.append_cancel_left h
  rcases Nat.le_total x.length y.length with hl | hl
  · exact append_escape_inj_le B C x y hl h2
  · exact (append_escape_inj_le B C y x hl h2.symm).symm

theorem init_setTaskName (d : RootModuleInputData) (n : String) :
    (setTaskName d n).init = setTaskName d.init n := by
  unfold RootModuleInputData.init setTaskName
  cases d.Backend <;> rfl

/-- Claim C6: two inputs differing only in task name render different main.tf
bytes, and every main.tf begins with the repository-wide warning preamble
followed by the task-scoped preamble. -/
theorem mainTF_preamble_distinct (d : RootModuleInputData) (n1 n2 : String)
    (h : n1 ≠ n2) :
    (∃ r, mainTFContent ((setTaskName d n1).init) =
        RootPreamble ++ (taskPreamble n1 d.Task.Description ++ r)) ∧
    mainTFContent ((setTaskName d n1).init) ≠
      mainTFContent ((setTaskName d n2).init) := by
  constructor
  · refine ⟨mainTFHcl (setTaskName d.init n1), ?_⟩
    rw [init_setTaskName]
    simp [mainTFContent, setTaskName, taskPreamble, init_Task,
      String.append_assoc]
  · intro heq
    apply h
    rw [init_setTaskName, init_setTaskName, mainTFContent_decomp,
      mainTFContent_decomp] at heq
    have hdata := congrArg String.data heq
    simp only [String.data_append, escapeString_data] at hdata
    exact String.ext (append_escape_inj _ _ _ _ _ hdata)

/-- Witness for C6 at two concrete task names. -/
theorem mainTF_preamble_distinct_witness :
    (∃ r, mainTFContent ((setTaskName sampleData "alpha").init) =
        RootPreamble ++ (taskPreamble "alpha" sampleData.Task.Description ++ r)) ∧
    mainTFContent ((setTaskName sampleData "alpha").init) ≠
      mainTFContent ((setTaskName sampleData "beta").init) :=
  mainTF_preamble_distinct sampleData "alpha" "beta" (by decide)

/-! ### C1: order (in)dependence of the rendered bundle -/

theorem sortByKey_eq_of_perm {α : Type} (f : α → String) (l1 l2 : List α)
    (hp : List.Perm l1 l2) (hn : (l2.map f).Nodup) :
    sortByKey f l1 = sortByKey f l2 := by
  have hs1 := sortByKey_sorted f l1
  have hs2 := sortByKey_sorted f l2
  have hperm : List.Perm (sortByKey f l1) (sortByKey f l2) :=
    ((sortByKey_perm f l1).trans hp).trans (sortByKey_perm f l2).symm
  have hnodup1 : ((sortByKey f l1).map f).Nodup := by
    refine (List.Perm.nodup_iff ?_).mpr hn
    exact List.Perm.map f ((sortByKey_perm f l1).trans hp)
  have hnodup2 : ((sortByKey f l2).map f).Nodup := by
    refine (List.Perm.nodup_iff ?_).mpr hn
    exact List.Perm.map f (sortByKey_perm f l2)
  have hpw1 : (sortByKey f l1).Pairwise (fun a b => f a ≠ f b) :=
    List.pairwise_map.mp hnodup1
  have hpw2 : (sortByKey f l2).Pairwise (fun a b => f a ≠ f b) :=
    List.pairwise_map.mp hnodup2
  haveI : IsAntisymm α
      (fun a b => strLe (f a) (f b) = true ∧ f a ≠ f b) :=
    ⟨fun _ _ h1 h2 => absurd (strLe_antisymm h1.1 h2.1) h1.2⟩
  exact List.eq_of_perm_of_sorted hperm (hs1.and hpw1) (hs2.and hpw2)

theorem init_eq_of_perm (d : RootModuleInputData) (svs : List Service)
    (pvs : List NamedBlock) (hs : List.Perm svs d.Services)
    (hp : List.Perm pvs d.Providers)
    (hns : (d.Services.map Service.Name).Nodup)
    (hnp : (d.Providers.map NamedBlock.Name).Nodup) :
    ({ d with Services := svs, Providers := pvs }
      : RootModuleInputData).init = d.init := by
  have h1 : sortProviders pvs = sortProviders d.Providers :=
    sortByKey_eq_of_perm _ _ _ hp hnp
  have h2 : sortServices svs = sortServices d.Services :=
    sortByKey_eq_of_perm _ _ _ hs hns
  unfold RootModuleInputData.init
  cases hB : d.Backend <;> simp [hB, h1, h2]

/-- Claim C1 (amended): when Service names are pairwise distinct and Provider
names are pairwise distinct, permuting the input order of Services or
Providers produces byte-identical contents for every generated file of
the bundle. -/
theorem bundle_order_independence (d : RootModuleInputData)
    (svs : List Service) (pvs : List NamedBlock)
    (hs : List.Perm svs d.Services) (hp : List.Perm pvs d.Providers)
    (hns : (d.Services.map Service.Name).Nodup)
    (hnp : (d.Providers.map NamedBlock.Name).Nodup) :
    bundleContents { d with Services := svs, Providers := pvs } =
      bundleContents d := by
  unfold bundleContents
  rw [init_eq_of_perm d svs pvs hs hp hns hnp]

/-- A provider named `p` with attribute `a`. -/
def provA : NamedBlock := { Name := "p", Variables := [("a", .bool true)] }

/-- A provider also named `p`, with attribute `b`. -/
def provB : NamedBlock := { Name := "p", Variables := [("b", .bool true)] }

/-- A provider named `q`. -/
def provC : NamedBlock := { Name := "q", Variables := [("c", .bool true)] }

set_option maxRecDepth 400000 in
/-- Counterexample to C1 as stated: with two providers sharing the name
`p`, permuting the Providers list changes the rendered bundle (the stable
sort by name preserves the input order of the equal-named blocks, so the
provider blocks swap). -/
theorem bundle_order_dependence_counterexample :
    List.Perm [provB, provA] [provA, provB] ∧
    bundleContents { sampleData with Providers := [provB, provA] } ≠
      bundleContents { sampleData with Providers := [provA, provB] } :=
  ⟨List.Perm.swap provA provB [], by decide⟩

/-- Witness for the amended C1 at a concrete permutation of two
distinctly named providers. -/
theorem bundle_order_independence_witness :
    bundleContents { sampleData with Providers := [provC, provA] } =
      bundleContents { sampleData with Providers := [provA, provC] } :=
  bundle_order_independence
    { sampleData with Providers := [provA, provC] } [] [provC, provA]
    (List.Perm.refl _) (List.Perm.swap provA provC []) (by decide) (by decide)

/-! ### Filesystem lemmas and error propagation (C7) -/

theorem fsGet_cons_eq (pn : String) (st : FileSt) (rest : FS) (m : String)
    (h : pn = m) : fsGet ((pn, st) :: rest) m = some st := by
  simp [fsGet, List.find?, h]

theorem fsGet_cons_ne (pn : String) (st : FileSt) (rest : FS) (m : String)
    (h : ¬ pn = m) : fsGet ((pn, st) :: rest) m = fsGet rest m := by
  simp [fsGet, List.find?, h]

theorem fsGet_fsSet (fs : FS) (n m : String) (st : FileSt) :
    fsGet (fsSet fs n st) m = if n = m then some st else fsGet fs m := by
  induction fs with
  | nil =>
    by_cases h : n = m <;> simp [fsSet, fsGet, List.find?, h]
  | cons pair rest ih =>
    obtain ⟨pn, pst⟩ := pair
    by_cases h1 : pn = n
    · subst h1
      simp only [fsSet, eq_self_iff_true, if_true]
      by_cases h2 : pn = m
      · rw [fsGet_cons_eq _ _ _ _ h2, fsGet_cons_eq _ _ _ _ h2, if_pos h2]
      · rw [fsGet_cons_ne _ _ _ _ h2, fsGet_cons_ne _ _ _ _ h2, if_neg h2]
    · simp only [fsSet, if_neg h1]
      by_cases h2 : pn = m
      · have hnm : ¬ n = m := fun h => h1 (h2.trans h.symm)
        rw [fsGet_cons_eq _ _ _ _ h2, fsGet_cons_eq _ _ _ _ h2, if_neg hnm]
      · rw [fsGet_cons_ne _ _ _ _ h2, fsGet_cons_ne _ _ _ _ h2, ih]

theorem fsHas_fsSet (fs : FS) (n m : String) (st : FileSt) :
    fsHas (fsSet fs n st) m = if n = m then true else fsHas fs m := by
  unfold fsHas
  rw [fsGet_fsSet]
  by_cases h : n = m <;> simp [h]

/-- The environment in which only the repository-wide preamble write
fails. -/
def envRootPreFail : WriteEnv :=
  { rootPreambleOk := false, taskPreambleOk := true, contentOk := true }

/-- The environment in which only the task-preamble write fails. -/
def envTaskPreFail : WriteEnv :=
  { rootPreambleOk := true, taskPreambleOk := false, contentOk := true }

theorem initModule_ok (env : WriteEnv) (d : RootModuleInputData) :
    ∀ funcs : List (String × Renderer),
      (∀ pr ∈ funcs, ∀ dd : RootModuleInputData, (pr.2 env dd).isOk = true) →
      ∀ fs : FS, (initModule env d funcs fs).isOk = true
  | [], _, fs => rfl
  | (n, fn) :: rest, hok, fs => by
    have hokrest : ∀ pr ∈ rest, ∀ dd : RootModuleInputData,
        (pr.2 env dd).isOk = true :=
      fun pr hpr dd => hok pr (List.mem_cons_of_mem _ hpr) dd
    have hokhead : (fn env d).isOk = true :=
      hok (n, fn) (List.mem_cons_self _ _) d
    by_cases h1 : n = ModuleVarsFilename ∧ d.Variables.length = 0
    · simpa [initModule, h1] using initModule_ok env d rest hokrest fs
    · by_cases h2 : fsHas fs n ∧ d.skipOverride
      · simpa [initModule, h1, h2] using initModule_ok env d rest hokrest fs
      · cases hfn : fn env d with
        | error e =>
          rw [hfn] at hokhead
          exact absurd hokhead (by simp [Except.isOk, Except.toBool])
        | ok content =>
          have hrec := initModule_ok env d rest hokrest
            (fsSet fs n { content := content, perms := d.FilePerms })
          cases hrec2 : initModule env d rest
              (fsSet fs n { content := content, perms := d.FilePerms }) with
          | error e =>
            rw [hrec2] at hrec
            exact absurd hrec (by simp [Except.isOk, Except.toBool])
          | ok p =>
            obtain ⟨fs2, written⟩ := p
            have h1b : ¬(n = ModuleVarsFilename ∧ d.Variables = []) := by
              simpa [List.length_eq_zero] using h1
            simp [initModule, h1, h1b, h2, hfn, hrec2, Except.isOk,
              Except.toBool]

set_option maxRecDepth 400000 in
/-- Counterexample to C7 as stated: a failure of the task-preamble write
is returned by `writePreamble`, so the main.tf renderer and the whole
bundle render return an error. -/
theorem task_preamble_error_counterexample :
    (newMainTF envTaskPreFail sampleData.init).isOk = false ∧
    (InitRootModule envTaskPreFail sampleData []).isOk = false := by
  constructor <;> decide

/-- Claim C7 (amended): a failure writing the repository-wide warning preamble
is swallowed — the renderer and the bundle render still succeed — but a
failure writing the task-scoped preamble is returned by the renderer. -/
theorem preamble_error_handling (d : RootModuleInputData) (fs : FS) :
    (∀ dd : RootModuleInputData, (newMainTF envRootPreFail dd).isOk = true) ∧
    (InitRootModule envRootPreFail d fs).isOk = true ∧
    (∀ dd : RootModuleInputData,
      (newMainTF envTaskPreFail dd).isOk = false) := by
  refine ⟨fun dd => rfl, ?_, fun dd => rfl⟩
  apply initModule_ok
  intro pr hpr dd
  simp only [fileFuncsAll, List.mem_cons, List.mem_singleton] at hpr
  rcases hpr with rfl | rfl | rfl | rfl | rfl | h
  · rfl
  · rfl
  · rfl
  · rfl
  · rfl
  · exact absurd h (List.not_mem_nil _)

/-! ### C9: skip-existing mode leaves existing files untouched -/

theorem init_skipOverride (d : RootModuleInputData) :
    d.init.skipOverride = d.skipOverride := by
  unfold RootModuleInputData.init
  cases d.Backend <;> rfl

theorem init_Variables (d : RootModuleInputData) :
    d.init.Variables = d.Variables := by
  unfold RootModuleInputData.init
  cases d.Backend <;> rfl

theorem initModule_skip_frame (env : WriteEnv) (d : RootModuleInputData)
    (hskip : d.skipOverride = true) (f : String) (st : FileSt) :
    ∀ funcs : List (String × Renderer),
      (∀ pr ∈ funcs, ∀ dd : RootModuleInputData, (pr.2 env dd).isOk = true) →
      ∀ fs : FS, fsGet fs f = some st →
        ∃ fs2 w, initModule env d funcs fs = .ok (fs2, w) ∧
          fsGet fs2 f = some st ∧ f ∉ w
  | [], _, fs, hget => ⟨fs, [], rfl, hget, by simp⟩
  | (n, fn) :: rest, hok, fs, hget => by
    have hokrest : ∀ pr ∈ rest, ∀ dd : RootModuleInputData,
        (pr.2 env dd).isOk = true :=
      fun pr hpr dd => hok pr (List.mem_cons_of_mem _ hpr) dd
    by_cases h1 : n = ModuleVarsFilename ∧ d.Variables.length = 0
    · obtain ⟨fs2, w, hrun, hget2, hnotin⟩ :=
        initModule_skip_frame env d hskip f st rest hokrest fs hget
      exact ⟨fs2, w, by simp [initModule, h1, hrun], hget2, hnotin⟩
    · by_cases h2 : fsHas fs n = true ∧ d.skipOverride = true
      · obtain ⟨fs2, w, hrun, hget2, hnotin⟩ :=
          initModule_skip_frame env d hskip f st rest hokrest fs hget
        exact ⟨fs2, w, by simp [initModule, h1, h2, hrun], hget2, hnotin⟩
      · have hne : ¬ n = f := by
          intro hnf
          subst hnf
          exact h2 ⟨by simp [fsHas, hget], hskip⟩
        have hokhead : (fn env d).isOk = true :=
          hok (n, fn) (List.mem_cons_self _ _) d
        cases hfn : fn env d with
        | error e =>
          rw [hfn] at hokhead
          exact absurd hokhead (by simp [Except.isOk, Except.toBool])
        | ok content =>
          have hget' :
              fsGet (fsSet fs n { content := content, perms := d.FilePerms })
                f = some st := by
            rw [fsGet_fsSet, if_neg hne]
            exact hget
          obtain ⟨fs2, w, hrun, hget2, hnotin⟩ :=
            initModule_skip_frame env d hskip f st rest hokrest
              (fsSet fs n { content := content, perms := d.FilePerms }) hget'
          refine ⟨fs2, n :: w, ?_, hget2, ?_⟩
          · have h1b : ¬(n = ModuleVarsFilename ∧ d.Variables = []) := by
              simpa [List.length_eq_zero] using h1
            simp [initModule, h1, h1b, h2, hfn, hrun]
          · simp only [List.mem_cons, not_or]
            exact ⟨fun h => hne h.symm, hnotin⟩

/-- Claim C9: with skip-existing mode enabled, a destination file that already
exists is left with its prior content and permissions, is not among the
files written (no renderer output reaches it), and the bundle render
returns no error. -/
theorem skip_existing_frame (d : RootModuleInputData) (fs : FS)
    (f : String) (st : FileSt) (hskip : d.skipOverride = true)
    (hget : fsGet fs f = some st) :
    ∃ fs2 w, InitRootModule WriteEnv.allOk d fs = .ok (fs2, w) ∧
      fsGet fs2 f = some st ∧ f ∉ w := by
  have hskip' : d.init.skipOverride = true := by
    rw [init_skipOverride]; exact hskip
  apply initModule_skip_frame WriteEnv.allOk d.init hskip' f st fileFuncsAll
    ?_ fs hget
  intro pr hpr dd
  simp only [fileFuncsAll, List.mem_cons, List.mem_singleton] at hpr
  rcases hpr with rfl | rfl | rfl | rfl | rfl | h
  · rfl
  · rfl
  · rfl
  · rfl
  · rfl
  · exact absurd h (List.not_mem_nil _)

/-- A skip-existing-mode input with a non-empty Variables set. -/
def skipModeData : RootModuleInputData :=
  { sampleData with
    skipOverride := true
    Variables := [("region", .str "us-east-1")] }

/-- A pre-existing main.tf with sentinel content. -/
def sentinelFS : FS := [("main.tf", { content := "sentinel", perms := 7 })]

/-- Witness for C9: a pre-created main.tf with sentinel content survives
a skip-mode render untouched. -/
theorem skip_existing_frame_witness :
    ∃ fs2 w, InitRootModule WriteEnv.allOk skipModeData sentinelFS =
        .ok (fs2, w) ∧
      fsGet fs2 "main.tf" = some { content := "sentinel", perms := 7 } ∧
      "main.tf" ∉ w :=
  skip_existing_frame skipModeData sentinelFS "main.tf"
    { content := "sentinel", perms := 7 } rfl rfl

/-! ### C5: which files a render emits -/

theorem newMainTF_allOk (dd : RootModuleInputData) :
    newMainTF WriteEnv.allOk dd =
      .ok (RootPreamble ++ taskPreamble dd.Task.Name dd.Task.Description
        ++ mainTFHcl dd) := rfl

/-- Claim C5 (amended): whenever skip-existing mode is disabled, or none of the
five destination files pre-exists, a render emits variables.module.tf iff
the Variables set is non-empty, and always emits main.tf, variables.tf,
terraform.tfvars.tmpl and providers.tfvars; the render returns no
error. -/
theorem emitted_files (d : RootModuleInputData) (fs : FS)
    (h : d.skipOverride = false ∨
      (fsHas fs RootFilename = false ∧ fsHas fs VarsFilename = false ∧
        fsHas fs ModuleVarsFilename = false ∧
        fsHas fs TFVarsTmplFilename = false ∧
        fsHas fs ProvidersTFVarsFilename = false)) :
    (InitRootModule WriteEnv.allOk d fs).isOk = true ∧
    (ModuleVarsFilename ∈ writtenOf (InitRootModule WriteEnv.allOk d fs) ↔
      d.Variables ≠ []) ∧
    RootFilename ∈ writtenOf (InitRootModule WriteEnv.allOk d fs) ∧
    VarsFilename ∈ writtenOf (InitRootModule WriteEnv.allOk d fs) ∧
    TFVarsTmplFilename ∈ writtenOf (InitRootModule WriteEnv.allOk d fs) ∧
    ProvidersTFVarsFilename ∈
      writtenOf (InitRootModule WriteEnv.allOk d fs) := by
  rcases h with hA | hB
  · by_cases hvv : d.Variables = [] <;>
      simp [InitRootModule, fileFuncsAll, initModule, newMainTF_allOk,
        writtenOf, init_Variables, init_skipOverride, hA, hvv, RootFilename,
        VarsFilename, ModuleVarsFilename, TFVarsTmplFilename,
        ProvidersTFVarsFilename, Except.isOk, Except.toBool]
  · obtain ⟨b1, b2, b3, b4, b5⟩ := hB
    simp only [RootFilename, VarsFilename, ModuleVarsFilename,
      TFVarsTmplFilename, ProvidersTFVarsFilename] at b1 b2 b3 b4 b5 ⊢
    by_cases hvv : d.Variables = [] <;>
      simp [InitRootModule, fileFuncsAll, initModule, newMainTF_allOk,
        writtenOf, init_Variables, init_skipOverride, hvv, fsHas_fsSet,
        b1, b2, b3, b4, b5, RootFilename, VarsFilename, ModuleVarsFilename,
        TFVarsTmplFilename, ProvidersTFVarsFilename, Except.isOk,
        Except.toBool]

set_option maxRecDepth 400000 in
/-- Counterexample to C5 as stated: with skip-existing mode enabled and a
pre-existing main.tf, a render returns no error but does not emit
main.tf. -/
theorem main_tf_not_always_emitted_counterexample :
    (InitRootModule WriteEnv.allOk skipModeData sentinelFS).isOk = true ∧
    RootFilename ∉
      writtenOf (InitRootModule WriteEnv.allOk skipModeData sentinelFS) := by
  constructor <;> decide

/-- Witness for the amended C5 at a concrete input with empty Variables
and an empty target directory. -/
theorem emitted_files_witness :
    (InitRootModule WriteEnv.allOk sampleData []).isOk = true ∧
    (ModuleVarsFilename ∈ writtenOf (InitRootModule WriteEnv.allOk sampleData []) ↔
      sampleData.Variables ≠ []) ∧
    RootFilename ∈ writtenOf (InitRootModule WriteEnv.allOk sampleData []) ∧
    VarsFilename ∈ writtenOf (InitRootModule WriteEnv.allOk sampleData []) ∧
    TFVarsTmplFilename ∈ writtenOf (InitRootModule WriteEnv.allOk sampleData []) ∧
    ProvidersTFVarsFilename ∈
      writtenOf (InitRootModule WriteEnv.allOk sampleData []) :=
  emitted_files sampleData [] (Or.inl rfl)

end Tftmpl
